import Mathlib

/-!
# pcpfast: extracting one metric value from a PCP result

A shallow embedding of `src/supremm/pcpfast/pcpfast.c`.  The file holds a single
C function,

    int pcpfastExtractValues(pmResult *rp, int *inst, pmAtomValue *atom,
                             int vsetidx, int vlistidx, int type)

which copies the instance identifier of the entry `rp->vset[vsetidx]->vlist[vlistidx]`
into `*inst`, hands the entry to the library routine `pmExtractValue` and returns
that routine's status.

The types `pmResult`, `pmValueSet`, `pmValue` and `pmAtomValue` and the routine
`pmExtractValue` come from `pcp/pmapi.h` and the PCP library, which are not part
of the source tree.  The wrapper is therefore embedded generically: the type `V`
of an encoded value, the type `A` of a decoded value and the decode routine are
parameters.  A concrete decode routine, written from the specification, is used
where a statement is about what the decode routine itself answers.
-/

namespace Pcpfast

/-! ## Data model -/

/-- Modelled from the spec: `pmValue` of `pcp/pmapi.h`, a value-list entry, one
(instance-id, encoded-value) pair.  The representation `V` of the encoded value
is left open. -/
structure pmValue (V : Type) where
  /-- the instance identifier -/
  inst : Int
  /-- the encoded value -/
  value : V
deriving DecidableEq, Repr

/-- Modelled from the spec: `pmValueSet` of `pcp/pmapi.h`, a value-set: an
encoding-format tag and an ordered sequence of value-list entries. -/
structure pmValueSet (V : Type) where
  /-- the declared encoding format of the values of the set -/
  valfmt : Int
  /-- the entries; their number is the length of the list -/
  vlist : List (pmValue V)
deriving DecidableEq, Repr

/-- Modelled from the spec: `pmResult` of `pcp/pmapi.h`, the result set: a
collection of per-metric value-sets. -/
structure pmResult (V : Type) where
  /-- the value-sets; their number is the length of the list -/
  vset : List (pmValueSet V)
deriving DecidableEq, Repr

/-- The memory the function works on: the result set behind `rp`, the `int`
behind `inst` and the `pmAtomValue` behind `atom`.  The three are separate
objects: the output locations do not overlap the result set or each other. -/
structure Mem (V A : Type) where
  /-- the object `*rp` -/
  rp : pmResult V
  /-- the object `*inst` -/
  inst : Int
  /-- the object `*atom` -/
  atom : A
deriving DecidableEq, Repr

/-- The shape of the decode routine
`int pmExtractValue(int valfmt, const pmValue *ival, int itype, pmAtomValue *oval, int otype)`:
it receives the format, the entry, the source type, what the destination holds
before the call and the destination type, and answers what the destination holds
after the call together with its status.  The entry is passed as a pointer to
`const`, so the routine has no result-set component in its answer. -/
abbrev Decode (V A : Type) : Type :=
  Int → pmValue V → Int → A → Int → A × Int

/-- One call of the decode routine, as seen at the call site. -/
structure Call (V A : Type) where
  /-- first argument -/
  valfmt : Int
  /-- the entry the second argument points to -/
  ival : pmValue V
  /-- third argument -/
  itype : Int
  /-- what the destination, the fourth argument, holds when the call is made -/
  oval : A
  /-- fifth argument -/
  otype : Int
deriving DecidableEq, Repr

/-- What a run of the function leaves behind: the memory, the returned status
and the calls of the decode routine it made, in order. -/
structure Outcome (V A : Type) where
  /-- memory after the run -/
  mem : Mem V A
  /-- the returned `int` -/
  status : Int
  /-- calls of the decode routine, oldest first -/
  calls : List (Call V A)
deriving DecidableEq, Repr

/-- The C expression `xs[i]` with an `int` index, made total: defined exactly when
the index is not negative and below the number of elements. -/
def cIndex {α : Type} (xs : List α) (i : Int) : Option α :=
  if 0 ≤ i then xs[i.toNat]? else none

/-! ## The function -/

/-- The function `pcpfastExtractValues` of `pcpfast.c`, statement by statement.
`none` stands for the undefined behaviour of an access outside the result set. -/
def pcpfastExtractValues {V A : Type} (pmExtractValue : Decode V A)
    (m : Mem V A) (vsetidx vlistidx type : Int) : Option (Outcome V A) := do
  -- *inst = rp->vset[vsetidx]->vlist[vlistidx].inst;
  let vs0 ← cIndex m.rp.vset vsetidx
  let e0 ← cIndex vs0.vlist vlistidx
  let m1 : Mem V A := { m with inst := e0.inst }
  -- status = pmExtractValue(rp->vset[vsetidx]->valfmt,
  --                         &rp->vset[vsetidx]->vlist[vlistidx], type, atom, type);
  let vs1 ← cIndex m1.rp.vset vsetidx
  let vs2 ← cIndex m1.rp.vset vsetidx
  let e2 ← cIndex vs2.vlist vlistidx
  let call : Call V A := ⟨vs1.valfmt, e2, type, m1.atom, type⟩
  let r := pmExtractValue call.valfmt call.ival call.itype call.oval call.otype
  let m2 : Mem V A := { m1 with atom := r.1 }
  let status := r.2
  -- return status;
  some ⟨m2, status, [call]⟩

/-- A decode routine that is a function of its arguments: whether it writes to
its destination, what it writes there and the status it returns are fixed by the
format, the entry and the two types; the destination is only ever written, so
what it held before the call is either replaced or left as it was. -/
def WriteOnly {V A : Type} (decode : Decode V A) : Prop :=
  ∀ (valfmt : Int) (ival : pmValue V) (itype otype : Int),
    ∃ (w : Option A) (s : Int), ∀ a : A, decode valfmt ival itype a otype = (w.getD a, s)

/-! ## The decode routine, from the specification -/

/-- Modelled from the spec: the format tag of a value held in situ
(`PM_VAL_INSITU` of `pcp/pmapi.h`). -/
def PM_VAL_INSITU : Int := 0
/-- Modelled from the spec: a format tag of a value held behind a pointer
(`PM_VAL_DPTR` of `pcp/pmapi.h`). -/
def PM_VAL_DPTR : Int := 1
/-- Modelled from the spec: the other format tag of a value held behind a pointer
(`PM_VAL_SPTR` of `pcp/pmapi.h`). -/
def PM_VAL_SPTR : Int := 2

/-- Modelled from the spec: the type tag of a 32-bit integer (`PM_TYPE_32`). -/
def PM_TYPE_32 : Int := 0
/-- Modelled from the spec: the type tag of a 64-bit integer (`PM_TYPE_64`). -/
def PM_TYPE_64 : Int := 2
/-- Modelled from the spec: the type tag of a double (`PM_TYPE_DOUBLE`). -/
def PM_TYPE_DOUBLE : Int := 5
/-- Modelled from the spec: the type tag of a string (`PM_TYPE_STRING`). -/
def PM_TYPE_STRING : Int := 6

/-- Modelled from the spec: the negative status of a decode failure
(`PM_ERR_CONV` of `pcp/pmapi.h`); the spec fixes only its sign. -/
def PM_ERR_CONV : Int := -12367

/-- Modelled from the spec: the encoded value of an entry, the union `value` of
`pmValue` together with the block it may point to.  A 32-bit integer is held in
situ; a 64-bit integer, a double (kept as its 64-bit pattern, which is all a
decode that passes it through needs) and a string are held behind a pointer. -/
inductive Stored where
  | int32 (v : Int)
  | int64 (v : Int)
  | double (bits : Nat)
  | string (s : String)
deriving DecidableEq, Repr

/-- Modelled from the spec: `pmAtomValue` of `pcp/pmapi.h`, the decoded value, as
the typed variant the spec describes (integer, floating-point and string
outcomes). -/
inductive pmAtomValue where
  | l (v : Int)
  | ll (v : Int)
  | d (bits : Nat)
  | cp (s : String)
deriving DecidableEq, Repr

/-- Modelled from the spec: the type tag under which a stored value decodes. -/
def Stored.type : Stored → Int
  | .int32 _ => PM_TYPE_32
  | .int64 _ => PM_TYPE_64
  | .double _ => PM_TYPE_DOUBLE
  | .string _ => PM_TYPE_STRING

/-- Modelled from the spec: whether a declared format is the one a stored value
is held in. -/
def Stored.heldIn : Stored → Int → Bool
  | .int32 _, valfmt => decide (valfmt = PM_VAL_INSITU)
  | _, valfmt => decide (valfmt = PM_VAL_DPTR) || decide (valfmt = PM_VAL_SPTR)

/-- Modelled from the spec: the decoded form of a stored value and the status of
a successful decode, zero, or the byte length for the variable-length type. -/
def Stored.decoded : Stored → pmAtomValue × Int
  | .int32 v => (.l v, 0)
  | .int64 v => (.ll v, 0)
  | .double bits => (.d bits, 0)
  | .string s => (.cp s, s.utf8ByteSize)

/-- Modelled from the spec: the external decode routine `pmExtractValue` of the
PCP library, which is not in the source tree.  The spec describes it for
requests whose source type and destination type agree, the only requests the
wrapper makes: a value stored in the declared format and under the requested
type is written to the destination unchanged with a status that is zero or
positive; otherwise (type mismatch, unsupported conversion, corrupted encoding)
the status is negative and the destination is left as it was.  A request whose
two types differ is answered as an unsupported conversion. -/
def pmExtractValue : Decode Stored pmAtomValue :=
  fun valfmt ival itype oval otype =>
    if itype = otype ∧ ival.value.heldIn valfmt = true ∧ ival.value.type = itype then
      ival.value.decoded
    else
      (oval, PM_ERR_CONV)

/-- The 64-bit pattern of the double nearest to 3.14. -/
def double_3_14 : Nat := 0x40091EB851EB851F

/-- The rational a 64-bit pattern with a normal exponent field stands for. -/
def binary64ToRat (bits : Nat) : ℚ :=
  let s : Nat := bits / 2 ^ 63
  let e : Nat := bits / 2 ^ 52 % 2 ^ 11
  let f : Nat := bits % 2 ^ 52
  (if s = 0 then 1 else -1) * (1 + (f : ℚ) / 2 ^ 52) * (2 : ℚ) ^ ((e : Int) - 1023)

/-! ## Sample data -/

/-- A result set with two value-sets: three 32-bit counters held in situ, and a
string and a double held behind pointers. -/
def sampleResult : pmResult Stored :=
  ⟨[⟨PM_VAL_INSITU, [⟨0, .int32 42⟩, ⟨1, .int32 (-5)⟩, ⟨9, .int32 0⟩]⟩,
    ⟨PM_VAL_DPTR, [⟨3, .string "sda"⟩, ⟨4, .double double_3_14⟩]⟩]⟩

/-- Memory holding the sample result set and arbitrary output locations. -/
def sampleMem : Mem Stored pmAtomValue := ⟨sampleResult, -1, .l 0⟩

/-- The result set of the scenario: one value-set with one entry, instance 7,
the double 3.14. -/
def scenarioResult (valfmt : Int) : pmResult Stored :=
  ⟨[⟨valfmt, [⟨7, .double double_3_14⟩]⟩]⟩

/-! ## Lemmas -/

theorem cIndex_eq_some_iff {α : Type} (xs : List α) (i : Int) (x : α) :
    cIndex xs i = some x ↔ 0 ≤ i ∧ xs[i.toNat]? = some x := by
  unfold cIndex
  split <;> simp_all

theorem cIndex_isSome_iff {α : Type} (xs : List α) (i : Int) :
    (cIndex xs i).isSome = true ↔ 0 ≤ i ∧ i < xs.length := by
  unfold cIndex
  split
  · rename_i h
    simp only [h, true_and]
    rw [Option.isSome_iff_exists]
    constructor
    · rintro ⟨a, ha⟩
      have := (List.getElem?_eq_some.mp ha).1
      omega
    · intro hlt
      have hlt2 : i.toNat < xs.length := by omega
      exact ⟨xs[i.toNat], List.getElem?_eq_getElem hlt2⟩
  · rename_i h
    simp [h]

/-- The run of the function on an entry that exists, in closed form. -/
theorem pcpfastExtractValues_of_entry {V A : Type} (decode : Decode V A)
    (m : Mem V A) (vsetidx vlistidx type : Int) (vs : pmValueSet V) (e : pmValue V)
    (hvs : cIndex m.rp.vset vsetidx = some vs) (he : cIndex vs.vlist vlistidx = some e) :
    pcpfastExtractValues decode m vsetidx vlistidx type =
      some ⟨⟨m.rp, e.inst, (decode vs.valfmt e type m.atom type).1⟩,
            (decode vs.valfmt e type m.atom type).2,
            [⟨vs.valfmt, e, type, m.atom, type⟩]⟩ := by
  simp [pcpfastExtractValues, hvs, he]

/-- A run that returns has found its entry. -/
theorem entry_of_pcpfastExtractValues {V A : Type} (decode : Decode V A)
    (m : Mem V A) (vsetidx vlistidx type : Int) (out : Outcome V A)
    (h : pcpfastExtractValues decode m vsetidx vlistidx type = some out) :
    ∃ vs e, cIndex m.rp.vset vsetidx = some vs ∧ cIndex vs.vlist vlistidx = some e := by
  cases hvs : cIndex m.rp.vset vsetidx with
  | none => simp [pcpfastExtractValues, hvs] at h
  | some vs =>
    cases he : cIndex vs.vlist vlistidx with
    | none => simp [pcpfastExtractValues, hvs, he] at h
    | some e => exact ⟨vs, e, rfl, he⟩

theorem binary64ToRat_double_3_14 :
    |binary64ToRat double_3_14 - 314 / 100| ≤ 1 / 2 ^ 52 := by
  unfold binary64ToRat double_3_14
  norm_num [abs_le]

theorem pmExtractValue_writeOnly : WriteOnly pmExtractValue := by
  intro valfmt ival itype otype
  by_cases h : itype = otype ∧ ival.value.heldIn valfmt = true ∧ ival.value.type = itype
  · exact ⟨some ival.value.decoded.1, ival.value.decoded.2, fun a => by simp [pmExtractValue, h]⟩
  · exact ⟨none, PM_ERR_CONV, fun a => by simp [pmExtractValue, h]⟩

/-- A write-only decode routine, called again on what it left in its destination,
leaves the same there and returns the same status. -/
theorem WriteOnly.again {V A : Type} {decode : Decode V A} (h : WriteOnly decode)
    (valfmt : Int) (ival : pmValue V) (itype otype : Int) (a : A) :
    decode valfmt ival itype (decode valfmt ival itype a otype).1 otype =
      decode valfmt ival itype a otype := by
  obtain ⟨w, s, hw⟩ := h valfmt ival itype otype
  rw [hw a, hw]
  cases w <;> rfl

/-- A run returns exactly when both array accesses are defined. -/
theorem pcpfastExtractValues_isSome_iff {V A : Type} (decode : Decode V A)
    (m : Mem V A) (vsetidx vlistidx type : Int) :
    (pcpfastExtractValues decode m vsetidx vlistidx type).isSome = true ↔
      ∃ vs e, cIndex m.rp.vset vsetidx = some vs ∧ cIndex vs.vlist vlistidx = some e := by
  constructor
  · intro h
    obtain ⟨out, hout⟩ := Option.isSome_iff_exists.mp h
    exact entry_of_pcpfastExtractValues decode m vsetidx vlistidx type out hout
  · rintro ⟨vs, e, hvs, he⟩
    rw [pcpfastExtractValues_of_entry decode m vsetidx vlistidx type vs e hvs he]
    rfl

/-! ## Properties of the wrapper, for every decode routine -/

/-- C1: for in-range indices the run returns and the output instance-id slot then
holds the `inst` field of the entry `rp.vset[vsetidx].vlist[vlistidx]`, for every
decode routine, whatever status it returns, and for every type tag and format. -/
theorem inst_slot_eq_entry_inst {V A : Type} (decode : Decode V A)
    (m : Mem V A) (vsetidx vlistidx type : Int) (vs : pmValueSet V) (e : pmValue V)
    (hvs : cIndex m.rp.vset vsetidx = some vs) (he : cIndex vs.vlist vlistidx = some e) :
    (pcpfastExtractValues decode m vsetidx vlistidx type).map (fun out => out.mem.inst) =
      some e.inst := by
  rw [pcpfastExtractValues_of_entry decode m vsetidx vlistidx type vs e hvs he]
  rfl

/-- Witness of C1: entry 0 of value-set 1 of the sample holds a string; requested
as a 32-bit integer the decode fails, and the instance id 3 is still copied out. -/
theorem inst_slot_eq_entry_inst_witness :
    cIndex sampleMem.rp.vset 1 = some ⟨PM_VAL_DPTR, [⟨3, .string "sda"⟩, ⟨4, .double double_3_14⟩]⟩ ∧
    (pcpfastExtractValues pmExtractValue sampleMem 1 0 PM_TYPE_32).map (fun out => out.mem.inst) =
      some 3 :=
  ⟨rfl, inst_slot_eq_entry_inst pmExtractValue sampleMem 1 0 PM_TYPE_32
    ⟨PM_VAL_DPTR, [⟨3, .string "sda"⟩, ⟨4, .double double_3_14⟩]⟩ ⟨3, .string "sda"⟩ rfl rfl⟩

/-- C2: for in-range indices the returned status is the status the decode routine
returned on the call the wrapper made, unchanged; so it is negative exactly when
the decode routine's status is. -/
theorem status_eq_decode_status {V A : Type} (decode : Decode V A)
    (m : Mem V A) (vsetidx vlistidx type : Int) (vs : pmValueSet V) (e : pmValue V)
    (hvs : cIndex m.rp.vset vsetidx = some vs) (he : cIndex vs.vlist vlistidx = some e) :
    ∃ out, pcpfastExtractValues decode m vsetidx vlistidx type = some out ∧
      out.status = (decode vs.valfmt e type m.atom type).2 ∧
      (out.status < 0 ↔ (decode vs.valfmt e type m.atom type).2 < 0) := by
  rw [pcpfastExtractValues_of_entry decode m vsetidx vlistidx type vs e hvs he]
  exact ⟨_, rfl, rfl, Iff.rfl⟩

/-- Witness of C2: on entry 1 of value-set 0 of the sample, with a decode routine
that answers the status -3 whatever it is given. -/
theorem status_eq_decode_status_witness :
    cIndex sampleMem.rp.vset 0 =
      some ⟨PM_VAL_INSITU, [⟨0, .int32 42⟩, ⟨1, .int32 (-5)⟩, ⟨9, .int32 0⟩]⟩ ∧
    ∃ out, pcpfastExtractValues (fun _ _ _ a _ => (a, -3)) sampleMem 0 1 PM_TYPE_64 = some out ∧
      out.status = (-3 : Int) ∧ (out.status < 0 ↔ (-3 : Int) < 0) :=
  ⟨rfl, status_eq_decode_status (fun _ _ _ a _ => (a, -3)) sampleMem 0 1 PM_TYPE_64
    ⟨PM_VAL_INSITU, [⟨0, .int32 42⟩, ⟨1, .int32 (-5)⟩, ⟨9, .int32 0⟩]⟩ ⟨1, .int32 (-5)⟩ rfl rfl⟩

/-- C3: for in-range indices the wrapper calls the decode routine exactly once,
with the `valfmt` of the value-set at `vsetidx`, the entry at `vlistidx` of that
value-set, the type tag as source type, the caller's atom slot as destination and
the same type tag as destination type; the atom slot afterwards holds what that
call left in it. -/
theorem calls_decode_once {V A : Type} (decode : Decode V A)
    (m : Mem V A) (vsetidx vlistidx type : Int) (vs : pmValueSet V) (e : pmValue V)
    (hvs : cIndex m.rp.vset vsetidx = some vs) (he : cIndex vs.vlist vlistidx = some e) :
    ∃ out, pcpfastExtractValues decode m vsetidx vlistidx type = some out ∧
      out.calls = [⟨vs.valfmt, e, type, m.atom, type⟩] ∧
      out.mem.atom = (decode vs.valfmt e type m.atom type).1 := by
  rw [pcpfastExtractValues_of_entry decode m vsetidx vlistidx type vs e hvs he]
  exact ⟨_, rfl, rfl, rfl⟩

/-- Witness of C3: on entry 2 of value-set 0 of the sample. -/
theorem calls_decode_once_witness :
    cIndex sampleMem.rp.vset 0 =
      some ⟨PM_VAL_INSITU, [⟨0, .int32 42⟩, ⟨1, .int32 (-5)⟩, ⟨9, .int32 0⟩]⟩ ∧
    ∃ out, pcpfastExtractValues pmExtractValue sampleMem 0 2 PM_TYPE_32 = some out ∧
      out.calls = [⟨PM_VAL_INSITU, ⟨9, .int32 0⟩, PM_TYPE_32, sampleMem.atom, PM_TYPE_32⟩] ∧
      out.mem.atom =
        (pmExtractValue PM_VAL_INSITU ⟨9, .int32 0⟩ PM_TYPE_32 sampleMem.atom PM_TYPE_32).1 :=
  ⟨rfl, calls_decode_once pmExtractValue sampleMem 0 2 PM_TYPE_32
    ⟨PM_VAL_INSITU, [⟨0, .int32 42⟩, ⟨1, .int32 (-5)⟩, ⟨9, .int32 0⟩]⟩ ⟨9, .int32 0⟩ rfl rfl⟩

/-- C6: with a decode routine that is a function of its arguments, a second call
with the same indices and type tag, made on the memory the first call left,
returns, and leaves the same instance id, the same decoded value, the same result
set and the same status as the first: the first call having happened makes no
difference to the second. -/
theorem second_call_same {V A : Type} (decode : Decode V A) (hfun : WriteOnly decode)
    (m : Mem V A) (vsetidx vlistidx type : Int) (out1 : Outcome V A)
    (h1 : pcpfastExtractValues decode m vsetidx vlistidx type = some out1) :
    ∃ out2, pcpfastExtractValues decode out1.mem vsetidx vlistidx type = some out2 ∧
      out2.mem.inst = out1.mem.inst ∧ out2.mem.atom = out1.mem.atom ∧
      out2.status = out1.status ∧ out2.mem.rp = m.rp := by
  obtain ⟨vs, e, hvs, he⟩ := entry_of_pcpfastExtractValues decode m vsetidx vlistidx type out1 h1
  rw [pcpfastExtractValues_of_entry decode m vsetidx vlistidx type vs e hvs he] at h1
  cases h1
  have hvs1 : cIndex (Mem.mk m.rp e.inst (decode vs.valfmt e type m.atom type).1).rp.vset vsetidx
      = some vs := hvs
  rw [pcpfastExtractValues_of_entry decode _ vsetidx vlistidx type vs e hvs1 he]
  refine ⟨_, rfl, rfl, ?_, ?_, rfl⟩
  · exact congrArg Prod.fst (hfun.again vs.valfmt e type type m.atom)
  · exact congrArg Prod.snd (hfun.again vs.valfmt e type type m.atom)

/-- Witness of C6: the sample entry holding 42, requested as a 32-bit integer. -/
theorem second_call_same_witness :
    WriteOnly pmExtractValue ∧
    pcpfastExtractValues pmExtractValue sampleMem 0 0 PM_TYPE_32 =
      some ⟨⟨sampleResult, 0, .l 42⟩, 0,
        [⟨PM_VAL_INSITU, ⟨0, .int32 42⟩, PM_TYPE_32, .l 0, PM_TYPE_32⟩]⟩ ∧
    ∃ out2, pcpfastExtractValues pmExtractValue ⟨sampleResult, 0, .l 42⟩ 0 0 PM_TYPE_32 = some out2 ∧
      out2.mem.inst = 0 ∧ out2.mem.atom = .l 42 ∧ out2.status = 0 ∧ out2.mem.rp = sampleMem.rp :=
  ⟨pmExtractValue_writeOnly, rfl,
    second_call_same pmExtractValue pmExtractValue_writeOnly sampleMem 0 0 PM_TYPE_32
      ⟨⟨sampleResult, 0, .l 42⟩, 0,
        [⟨PM_VAL_INSITU, ⟨0, .int32 42⟩, PM_TYPE_32, .l 0, PM_TYPE_32⟩]⟩ rfl⟩

/-- C7: for in-range indices the run returns with the result set it started with;
of the memory only the instance-id slot and the atom slot are written. -/
theorem result_set_unchanged {V A : Type} (decode : Decode V A)
    (m : Mem V A) (vsetidx vlistidx type : Int) (vs : pmValueSet V) (e : pmValue V)
    (hvs : cIndex m.rp.vset vsetidx = some vs) (he : cIndex vs.vlist vlistidx = some e) :
    ∃ out, pcpfastExtractValues decode m vsetidx vlistidx type = some out ∧
      out.mem.rp = m.rp ∧
      out.mem = { m with inst := out.mem.inst, atom := out.mem.atom } := by
  rw [pcpfastExtractValues_of_entry decode m vsetidx vlistidx type vs e hvs he]
  exact ⟨_, rfl, rfl, rfl⟩

/-- Witness of C7: on the double of the sample, decoded as a double. -/
theorem result_set_unchanged_witness :
    cIndex sampleMem.rp.vset 1 = some ⟨PM_VAL_DPTR, [⟨3, .string "sda"⟩, ⟨4, .double double_3_14⟩]⟩ ∧
    ∃ out, pcpfastExtractValues pmExtractValue sampleMem 1 1 PM_TYPE_DOUBLE = some out ∧
      out.mem.rp = sampleMem.rp ∧
      out.mem = { sampleMem with inst := out.mem.inst, atom := out.mem.atom } :=
  ⟨rfl, result_set_unchanged pmExtractValue sampleMem 1 1 PM_TYPE_DOUBLE
    ⟨PM_VAL_DPTR, [⟨3, .string "sda"⟩, ⟨4, .double double_3_14⟩]⟩ ⟨4, .double double_3_14⟩ rfl rfl⟩

/-- C9: the wrapper checks, clamps and wraps nothing: the run returns exactly when
`0 ≤ vsetidx < number of value-sets` and `0 ≤ vlistidx < number of entries` of the
value-set at `vsetidx`; otherwise it has no outcome at all. -/
theorem defined_iff_in_range {V A : Type} (decode : Decode V A)
    (m : Mem V A) (vsetidx vlistidx type : Int) :
    ((pcpfastExtractValues decode m vsetidx vlistidx type).isSome = true ↔
      (0 ≤ vsetidx ∧ vsetidx < m.rp.vset.length ∧
        ∃ vs, m.rp.vset[vsetidx.toNat]? = some vs ∧
          0 ≤ vlistidx ∧ vlistidx < vs.vlist.length)) ∧
    (pcpfastExtractValues decode m vsetidx vlistidx type = none ↔
      ¬ (0 ≤ vsetidx ∧ vsetidx < m.rp.vset.length ∧
        ∃ vs, m.rp.vset[vsetidx.toNat]? = some vs ∧
          0 ≤ vlistidx ∧ vlistidx < vs.vlist.length)) := by
  have key : (pcpfastExtractValues decode m vsetidx vlistidx type).isSome = true ↔
      (0 ≤ vsetidx ∧ vsetidx < m.rp.vset.length ∧
        ∃ vs, m.rp.vset[vsetidx.toNat]? = some vs ∧
          0 ≤ vlistidx ∧ vlistidx < vs.vlist.length) := by
    rw [pcpfastExtractValues_isSome_iff]
    constructor
    · rintro ⟨vs, e, hvs, he⟩
      have h1 := (cIndex_isSome_iff m.rp.vset vsetidx).mp (by rw [hvs]; rfl)
      have h2 := (cIndex_isSome_iff vs.vlist vlistidx).mp (by rw [he]; rfl)
      exact ⟨h1.1, h1.2, vs, ((cIndex_eq_some_iff _ _ _).mp hvs).2, h2.1, h2.2⟩
    · rintro ⟨h0, _, vs, hvs, hj0, hj⟩
      have h2 := (cIndex_isSome_iff vs.vlist vlistidx).mpr ⟨hj0, hj⟩
      obtain ⟨e, he⟩ := Option.isSome_iff_exists.mp h2
      exact ⟨vs, e, (cIndex_eq_some_iff _ _ _).mpr ⟨h0, hvs⟩, he⟩
  refine ⟨key, ?_⟩
  rw [← key]
  cases pcpfastExtractValues decode m vsetidx vlistidx type <;> simp

/-! ## Properties that rest on what the decode routine answers -/

/-- C4: when the selected entry holds the 32-bit integer `v` in situ and the
value-set declares the in-situ format, the run with the 32-bit type tag returns
with `v` in the atom slot and a status that is not negative. -/
theorem insitu_int32_decodes (m : Mem Stored pmAtomValue) (vsetidx vlistidx : Int)
    (vs : pmValueSet Stored) (e : pmValue Stored) (v : Int)
    (hvs : cIndex m.rp.vset vsetidx = some vs) (he : cIndex vs.vlist vlistidx = some e)
    (hfmt : vs.valfmt = PM_VAL_INSITU) (hval : e.value = .int32 v) :
    ∃ out, pcpfastExtractValues pmExtractValue m vsetidx vlistidx PM_TYPE_32 = some out ∧
      out.mem.atom = .l v ∧ 0 ≤ out.status := by
  rw [pcpfastExtractValues_of_entry pmExtractValue m vsetidx vlistidx PM_TYPE_32 vs e hvs he]
  refine ⟨_, rfl, ?_, ?_⟩ <;>
    simp [pmExtractValue, hfmt, hval, Stored.heldIn, Stored.type, Stored.decoded]

/-- Witness of C4: the value 42. -/
theorem insitu_int32_decodes_witness :
    cIndex sampleMem.rp.vset 0 =
      some ⟨PM_VAL_INSITU, [⟨0, .int32 42⟩, ⟨1, .int32 (-5)⟩, ⟨9, .int32 0⟩]⟩ ∧
    ∃ out, pcpfastExtractValues pmExtractValue sampleMem 0 0 PM_TYPE_32 = some out ∧
      out.mem.atom = .l 42 ∧ 0 ≤ out.status :=
  ⟨rfl, insitu_int32_decodes sampleMem 0 0
    ⟨PM_VAL_INSITU, [⟨0, .int32 42⟩, ⟨1, .int32 (-5)⟩, ⟨9, .int32 0⟩]⟩ ⟨0, .int32 42⟩ 42
    rfl rfl rfl rfl⟩

/-- C5: when the value-set declares a pointer format and the selected entry holds
a string, the run with the 32-bit integer type tag returns a negative status. -/
theorem string_as_int32_fails (m : Mem Stored pmAtomValue) (vsetidx vlistidx : Int)
    (vs : pmValueSet Stored) (e : pmValue Stored) (s : String)
    (hvs : cIndex m.rp.vset vsetidx = some vs) (he : cIndex vs.vlist vlistidx = some e)
    (hfmt : vs.valfmt = PM_VAL_DPTR ∨ vs.valfmt = PM_VAL_SPTR) (hval : e.value = .string s) :
    ∃ out, pcpfastExtractValues pmExtractValue m vsetidx vlistidx PM_TYPE_32 = some out ∧
      out.status < 0 := by
  rw [pcpfastExtractValues_of_entry pmExtractValue m vsetidx vlistidx PM_TYPE_32 vs e hvs he]
  refine ⟨_, rfl, ?_⟩
  rcases hfmt with h | h <;>
    simp [pmExtractValue, h, hval, Stored.type, PM_TYPE_STRING, PM_TYPE_32, PM_ERR_CONV]

/-- Witness of C5: the string of the sample. -/
theorem string_as_int32_fails_witness :
    cIndex sampleMem.rp.vset 1 = some ⟨PM_VAL_DPTR, [⟨3, .string "sda"⟩, ⟨4, .double double_3_14⟩]⟩ ∧
    ∃ out, pcpfastExtractValues pmExtractValue sampleMem 1 0 PM_TYPE_32 = some out ∧
      out.status < 0 :=
  ⟨rfl, string_as_int32_fails sampleMem 1 0
    ⟨PM_VAL_DPTR, [⟨3, .string "sda"⟩, ⟨4, .double double_3_14⟩]⟩ ⟨3, .string "sda"⟩ "sda"
    rfl rfl (Or.inl rfl) rfl⟩

/-- C8: on the result set of one value-set with one entry, instance id 7 and the
double 3.14 stored behind a pointer, the run with indices (0, 0) and the double
type tag returns with 7 in the instance-id slot, the stored double unchanged in
the atom slot and a status that is not negative, whatever the two slots held. -/
theorem scenario_double (inst0 : Int) (atom0 : pmAtomValue) :
    (∃ out, pcpfastExtractValues pmExtractValue ⟨scenarioResult PM_VAL_DPTR, inst0, atom0⟩
        0 0 PM_TYPE_DOUBLE = some out ∧
      out.mem.inst = 7 ∧ out.mem.atom = .d double_3_14 ∧ 0 ≤ out.status) ∧
    (∃ out, pcpfastExtractValues pmExtractValue ⟨scenarioResult PM_VAL_SPTR, inst0, atom0⟩
        0 0 PM_TYPE_DOUBLE = some out ∧
      out.mem.inst = 7 ∧ out.mem.atom = .d double_3_14 ∧ 0 ≤ out.status) :=
  ⟨⟨_, rfl, rfl, rfl, Int.le_refl 0⟩, ⟨_, rfl, rfl, rfl, Int.le_refl 0⟩⟩

end Pcpfast
